import Mathlib

/-!
Verification of the action-conditioned segment-chaining loop of
`src/application/languagetable.py` (IRASim language-table game script).

The embedding models, faithfully to the Python source:
* the per-round action encoding loop (lines 147-158);
* the tolerant checkpoint restore (lines 81-97), including the `ema`
  unwrapping, the key filtering, and the percentage report whose
  denominator is the checkpoint size;
* the latent state update `start_image = seg_latents.squeeze()[-1].clone()`
  (line 167), with object identity made explicit so clones can be
  distinguished from the tensors they copy;
* the cumulative video buffer (`seg_video_list`, lines 142 and 172-173)
  and the per-round persist step (lines 175-183);
* the debug overlay `add_arrows_to_video` (lines 51-69) and
  `create_arrow_image` (lines 33-49).
-/

namespace LanguageTable

/-! ### Action encoding (lines 147-158) -/

/-- One iteration of the encoding loop: the `if/elif` chain of
lines 149-158, in source order (`d`, `a`, `s`, `w`, else). -/
def encodeAction (action : Char) : ℚ × ℚ :=
  if action = 'd' then (0, 0.5)
  else if action = 'a' then (0, -0.5)
  else if action = 's' then (-0.5, 0)
  else if action = 'w' then (0.5, 0)
  else (0, 0)

/-- The whole loop over `env_actions` building `actions` (lines 147-158). -/
def encodeActions (env_actions : List Char) : List (ℚ × ℚ) :=
  env_actions.map encodeAction

/-- The lookup table exactly as the spec words it:
`w→(0.5,0)`, `s→(-0.5,0)`, `a→(0,-0.5)`, `d→(0,0.5)`, anything
else→`(0,0)` (spec order, to be compared with `encodeAction`). -/
def controlVectorSpec (symbol : Char) : ℚ × ℚ :=
  if symbol = 'w' then (0.5, 0)
  else if symbol = 's' then (-0.5, 0)
  else if symbol = 'a' then (0, -0.5)
  else if symbol = 'd' then (0, 0.5)
  else (0, 0)

/-! ### Checkpoint loading (lines 81-97) -/

/-- A value stored in a `torch.load`ed checkpoint: either an opaque
tensor or a nested dictionary (as used for the `"ema"` sub-entry). -/
inductive CkptVal where
  | tensor (data : Nat)
  | dict (entries : List (String × CkptVal))

/-- A checkpoint dictionary: association list of parameter names to
values (Python dicts have unique keys; lookup returns the first hit). -/
abbrev Checkpoint := List (String × CkptVal)

/-- Python `checkpoint[key]` / `key in checkpoint`. -/
def lookupKey (checkpoint : Checkpoint) (key : String) : Option CkptVal :=
  match checkpoint with
  | [] => none
  | (k, v) :: rest => if k = key then some v else lookupKey rest key

/-- Lines 84-86: `if "ema" in checkpoint: checkpoint = checkpoint["ema"]`.
The replacement happens once, not recursively.  `none` models the crash
that iterating `.items()` of a non-dict value would cause. -/
def emaStep (checkpoint : Checkpoint) : Option Checkpoint :=
  match lookupKey checkpoint "ema" with
  | some (CkptVal.dict entries) => some entries
  | some (CkptVal.tensor _) => none
  | none => some checkpoint

/-- Lines 89-92: the filtering loop keeps exactly the checkpoint entries
whose key is in `model_dict`. -/
def pretrained_dict (checkpoint : Checkpoint) (model_dict : List String) : Checkpoint :=
  checkpoint.filter (fun kv => decide (kv.1 ∈ model_dict))

/-- Lines 93-94: the keys printed as `Ignoring: {k}`. -/
def ignored_keys (checkpoint : Checkpoint) (model_dict : List String) : List String :=
  (checkpoint.map Prod.fst).filter (fun k => decide (k ∉ model_dict))

/-- Line 95 computes `len(pretrained_dict) / len(checkpoint.items()) * 100`;
the fraction applied is the quotient before the `* 100` display scaling.
An empty checkpoint makes the division raise `ZeroDivisionError`,
modelled by `none`. -/
def fraction_applied (checkpoint : Checkpoint) (model_dict : List String) : Option ℚ :=
  if checkpoint.length = 0 then none
  else some (((pretrained_dict checkpoint model_dict).length : ℚ) / (checkpoint.length : ℚ))

/-- The whole restore (lines 84-97): unwrap `ema`, filter, report.
Returns the applied entries together with the reported fraction;
`none` models an uncaught exception aborting startup. -/
def loadCheckpoint (checkpoint : Checkpoint) (model_dict : List String) :
    Option (Checkpoint × ℚ) :=
  match emaStep checkpoint with
  | none => none
  | some ckpt =>
    match fraction_applied ckpt model_dict with
    | none => none
    | some frac => some (pretrained_dict ckpt model_dict, frac)

/-! ### Cumulative video buffer (lines 142, 172-173) -/

/-- A decoded pixel-space frame id, opaque to the stitching logic. -/
abbrev Frame := Nat

/-- Line 142: `seg_video_list = [video_tensor[0:1].numpy()]` — the buffer
starts as one segment holding the single initial reference frame. -/
def initial_seg_video_list (first_frame : Frame) : List (List Frame) :=
  [[first_frame]]

/-- Line 172: `seg_video_list.append(t_videos[1:])` — the round's segment
minus its first (duplicated seed) frame is appended, order preserved. -/
def push_segment (seg_video_list : List (List Frame)) (t_videos : List Frame) :
    List (List Frame) :=
  seg_video_list ++ [t_videos.drop 1]

/-- Line 173: `all_video = np.concatenate(seg_video_list, axis=0)`. -/
def all_video (seg_video_list : List (List Frame)) : List Frame :=
  seg_video_list.flatten

/-! ### Latent state update (line 167)

A torch tensor is modelled with an explicit object identity `oid` next to
its (opaque) numeric contents `data`, so that `.clone()` — which
allocates a new tensor holding the same values — is distinguishable from
the tensor it copies. -/

structure Tensor where
  oid : Nat
  data : Nat
deriving DecidableEq

/-- `t.clone()`: a newly allocated tensor (`fresh` object identity, one
not in use) holding the same data. -/
def clone (fresh : Nat) (t : Tensor) : Tensor :=
  { oid := fresh, data := t.data }

/-- Line 167: `start_image = seg_latents.squeeze()[-1].clone()` — take the
last latent of the returned trajectory and clone it; `none` models the
index error `[-1]` raises on an empty trajectory. -/
def update_start_image (fresh : Nat) (seg_latents : List Tensor) : Option Tensor :=
  (seg_latents.getLast?).map (clone fresh)

/-! ### Arrow images (lines 33-49) -/

/-- An RGB pixel. -/
abbrev Pix := Nat × Nat × Nat

/-- A pixel-space image of known extent (indexing out of range is
irrelevant to every property proved below). -/
structure Image where
  rows : Nat
  cols : Nat
  pix : Nat → Nat → Pix

/-- `np.flipud`: reverse the row order. -/
def flipud (img : Image) : Image :=
  { rows := img.rows, cols := img.cols,
    pix := fun i j => img.pix (img.rows - 1 - i) j }

/-- `np.rot90(img)`: rotate 90° counter-clockwise. -/
def rot90 (img : Image) : Image :=
  { rows := img.cols, cols := img.rows,
    pix := fun i j => img.pix j (img.cols - 1 - i) }

/-- `np.rot90(img, -1)`: rotate 90° clockwise. -/
def rot90cw (img : Image) : Image :=
  { rows := img.cols, cols := img.rows,
    pix := fun i j => img.pix (img.rows - 1 - j) i }

/-- Lines 33-49: `create_arrow_image(direction, size, color)`.  The
`np.zeros((size, size, 3))` initialisation is immediately overwritten by
`imageio.imread('./sample/arrow.jpg')` (the `base` image parameter), so
`size` and `color` never reach the result; then the direction branch
flips or rotates. -/
def create_arrow_image (base : Image) (direction : Char) (size : Nat) (color : Pix) :
    Image :=
  if direction = 's' then flipud base
  else if direction = 'a' then rot90 base
  else if direction = 'd' then rot90cw base
  else base

/-! ### Arrow overlay (lines 51-69) -/

/-- A frame as a pixel field (numpy arrays index-assign in place). -/
abbrev FrameFn := Nat → Nat → Pix

/-- Lines 66-67: one inner-loop iteration — if
`np.any(arrow_img[i, j] != 0)`, assign
`frame[200 + i, 240 + j] = arrow_img[i, j]`. -/
def write_cell (arrow : Image) (i j : Nat) (frame : FrameFn) : FrameFn :=
  if arrow.pix i j ≠ ((0, 0, 0) : Pix) then
    fun r c => if r = 200 + i ∧ c = 240 + j then arrow.pix i j else frame r c
  else frame

/-- Line 65: the inner loop `for j in range(arrow_img.shape[1])`. -/
def overlay_row (arrow : Image) (i : Nat) (frame : FrameFn) : FrameFn :=
  (List.range arrow.cols).foldl (fun f j => write_cell arrow i j f) frame

/-- Line 64: the outer loop `for i in range(arrow_img.shape[0])`,
anchored at `position = (200, 240)` (line 63). -/
def overlay_arrow (arrow : Image) (frame : FrameFn) : FrameFn :=
  (List.range arrow.rows).foldl (fun f i => overlay_row arrow i f) frame

/-- Lines 61-68: per-frame body of `add_arrows_to_video` — a blank
action `' '` leaves the frame untouched; otherwise the arrow for the
action is stamped onto the frame before it is written. -/
def process_frame (base : Image) (frame : FrameFn) (action : Char) : FrameFn :=
  if action ≠ ' ' then
    overlay_arrow (create_arrow_image base action 50 ((255, 0, 0) : Pix)) frame
  else frame

/-- The claim's modification region: pixel `(r, c)` lies inside the
arrow's bounding box anchored at `(200, 240)` and the corresponding
arrow pixel is non-zero in some channel. -/
def inArrowBox (arrow : Image) (r c : Nat) : Prop :=
  200 ≤ r ∧ r < 200 + arrow.rows ∧ 240 ≤ c ∧ c < 240 + arrow.cols ∧
    arrow.pix (r - 200) (c - 240) ≠ ((0, 0, 0) : Pix)

instance (arrow : Image) (r c : Nat) : Decidable (inArrowBox arrow r c) := by
  unfold inArrowBox; infer_instance

/-- Lines 51-69: `add_arrows_to_video` raises `ValueError` (modelled by
`Except.error`) iff the action list length differs from the frame count;
otherwise it writes each processed frame in order at 4 fps. -/
def add_arrows_to_video (base : Image) (video_np : List FrameFn) (actions : List Char) :
    Except String (List FrameFn) :=
  if actions.length ≠ video_np.length then
    Except.error "The length of the actions list must match the number of video frames."
  else
    Except.ok ((video_np.zip actions).map (fun p => process_frame base p.1 p.2))

/-! ### Per-round persist and session step (lines 145-183) -/

/-- Line 175: `output_video_path = os.path.join(game_dir, f'all_{seg_idx}-th.mp4')`. -/
def output_video_path (seg_idx : Nat) : String :=
  "application/languagetable_game/all_" ++ Nat.repr seg_idx ++ "-th.mp4"

/-- The observable effect of lines 177-180: one video file written at the
given path with `fps=4`, containing the given frames in order. -/
structure WrittenFile where
  path : String
  fps : Nat
  frames : List Frame
deriving DecidableEq

/-- The loop-carried state of the `while True` session loop. -/
structure SessionState where
  start_image : Tensor
  seg_video_list : List (List Frame)
  seg_idx : Nat

/-- What one `generate_single_video` call returns (line 165): the decoded
segment (seed frame first) and the latent trajectory. -/
structure GenResult where
  seg_video : List Frame
  seg_latents : List Tensor

/-- One iteration of the `while True` loop (lines 145-183): encode the
typed symbols, generate, clone the last latent into `start_image`,
append the segment minus its seed frame, write the cumulative video at
4 fps to the round-indexed path, increment `seg_idx`.  The only failure
is the index error on an empty latent trajectory; no length validation
of any kind occurs here. -/
def roundStep (gen : Tensor → List (ℚ × ℚ) → GenResult) (fresh : Nat)
    (st : SessionState) (env_actions : List Char) :
    Except String (SessionState × WrittenFile) :=
  let actions := encodeActions env_actions
  let res := gen st.start_image actions
  match update_start_image fresh res.seg_latents with
  | none => Except.error "index -1 is out of bounds"
  | some new_start =>
    let new_list := push_segment st.seg_video_list res.seg_video
    Except.ok
      ({ start_image := new_start, seg_video_list := new_list,
         seg_idx := st.seg_idx + 1 },
       { path := output_video_path st.seg_idx, fps := 4,
         frames := all_video new_list })

/-! ### Small concrete sample objects, used to instantiate theorems with
hypotheses at concrete inputs. -/

/-- A concrete 1×1 arrow image whose single pixel is non-zero. -/
def sampleImage : Image :=
  { rows := 1, cols := 1, pix := fun _ _ => (1, 1, 1) }

/-- A concrete constant frame. -/
def sampleFrame : FrameFn := fun _ _ => (9, 9, 9)

/-- A concrete segment generator: a two-frame segment and a one-latent
trajectory. -/
def sampleGen : Tensor → List (ℚ × ℚ) → GenResult :=
  fun _ _ => { seg_video := [10, 11], seg_latents := [⟨5, 5⟩] }

/-- A concrete session state as of the start of a round. -/
def sampleState : SessionState :=
  { start_image := ⟨0, 0⟩, seg_video_list := [[0]], seg_idx := 0 }

/-- The state `sampleState` reaches after one round with `sampleGen`. -/
def sampleNextState : SessionState :=
  { start_image := ⟨1, 5⟩, seg_video_list := [[0], [11]], seg_idx := 1 }

/-- The file that round writes. -/
def sampleFile : WrittenFile :=
  { path := output_video_path 0, fps := 4, frames := [0, 11] }

end LanguageTable

namespace LanguageTable

/-- C1: the encoding loop maps every symbol sequence to a control-vector
sequence of the same length, each element given by the fixed lookup
`w→(0.5,0)`, `s→(-0.5,0)`, `a→(0,-0.5)`, `d→(0,0.5)`, else `(0,0)`;
it is total, so it never fails on an unrecognized symbol. -/
theorem encode_matches_lookup (S : List Char) :
    (encodeActions S).length = S.length ∧ encodeActions S = S.map controlVectorSpec := by
  constructor
  · simp [encodeActions]
  · unfold encodeActions
    apply List.map_congr_left
    intro a _
    by_cases hd : a = 'd' <;> by_cases ha : a = 'a' <;> by_cases hs : a = 's' <;>
      by_cases hw : a = 'w' <;> simp_all [encodeAction, controlVectorSpec]

/-- C2: the names applied to the model are exactly the checkpoint names
that are also live model parameter names, and the skipped (`Ignoring:`)
names are exactly the checkpoint names that are not. -/
theorem applied_and_skipped_names (C : Checkpoint) (M : List String) :
    ((pretrained_dict C M).map Prod.fst).toFinset =
      (C.map Prod.fst).toFinset ∩ M.toFinset ∧
    (ignored_keys C M).toFinset = (C.map Prod.fst).toFinset \ M.toFinset := by
  constructor
  · ext k
    simp [pretrained_dict, List.mem_filter, List.mem_map]
  · ext k
    simp [ignored_keys, List.mem_filter, List.mem_map]

/-- C3 counterexample: on an empty checkpoint the report's division by
`len(checkpoint.items())` raises `ZeroDivisionError`, so loading fails —
the fraction is not defined there by any convention. -/
theorem empty_checkpoint_load_fails :
    fraction_applied [] [] = none ∧ loadCheckpoint [] [] = none :=
  ⟨rfl, rfl⟩

/-- C3 (amended): for every nonempty checkpoint, loading never fails on
missing or extra parameter keys, and the reported fraction applied
equals `|applied| / |C|` and lies in `[0, 1]`. -/
theorem fraction_defined_for_nonempty (C : Checkpoint) (M : List String) (h : C ≠ []) :
    ∃ q : ℚ, fraction_applied C M = some q ∧
      q = ((pretrained_dict C M).length : ℚ) / (C.length : ℚ) ∧ 0 ≤ q ∧ q ≤ 1 := by
  have hl : C.length ≠ 0 := by simpa [List.length_eq_zero] using h
  have hpos : (0 : ℚ) < (C.length : ℚ) := by
    exact_mod_cast Nat.pos_of_ne_zero hl
  refine ⟨_, by simp [fraction_applied, hl], rfl, ?_, ?_⟩
  · positivity
  · rw [div_le_one hpos]
    exact_mod_cast List.length_filter_le _ C

/-- C3 witness: a one-entry checkpoint none of whose keys match. -/
theorem fraction_defined_for_nonempty_witness :
    (([("k", CkptVal.tensor 0)] : Checkpoint) ≠ []) ∧
    ∃ q : ℚ, fraction_applied [("k", CkptVal.tensor 0)] [] = some q ∧
      q = ((pretrained_dict [("k", CkptVal.tensor 0)] []).length : ℚ)
            / (([("k", CkptVal.tensor 0)] : Checkpoint).length : ℚ) ∧
      0 ≤ q ∧ q ≤ 1 :=
  ⟨by simp, fraction_defined_for_nonempty [("k", CkptVal.tensor 0)] [] (by simp)⟩

/-- C4 counterexample: the `ema` unwrap is applied once, not recursively,
so when the `ema` sub-entry `E` itself contains an `"ema"` key,
`load(C, M)` and `load(E, M)` differ: the former applies `E`'s raw
`"a"` weight, the latter first unwraps `E`'s own `ema` sub-entry. -/
theorem ema_unwrap_not_recursive :
    loadCheckpoint
        [("ema", CkptVal.dict
            [("ema", CkptVal.dict [("a", CkptVal.tensor 1)]), ("a", CkptVal.tensor 2)])]
        ["a"]
      ≠ loadCheckpoint
        [("ema", CkptVal.dict [("a", CkptVal.tensor 1)]), ("a", CkptVal.tensor 2)]
        ["a"] := by
  intro h
  simp [loadCheckpoint, emaStep, lookupKey, fraction_applied, pretrained_dict] at h

/-- C4 (amended): if checkpoint `C` holds the dictionary `E` under its
`"ema"` key and `E` itself has no `"ema"` key, then loading `C` behaves
identically to loading `E`, for every model parameter name set. -/
theorem ema_precedence_nonnested (C E : Checkpoint) (M : List String)
    (hC : lookupKey C "ema" = some (CkptVal.dict E))
    (hE : lookupKey E "ema" = none) :
    loadCheckpoint C M = loadCheckpoint E M := by
  unfold loadCheckpoint emaStep
  rw [hC, hE]

/-- C4 witness: a checkpoint whose `ema` sub-entry has no nested `ema`. -/
theorem ema_precedence_nonnested_witness :
    (lookupKey [("ema", CkptVal.dict [("a", CkptVal.tensor 5)])] "ema"
        = some (CkptVal.dict [("a", CkptVal.tensor 5)])) ∧
    (lookupKey [("a", CkptVal.tensor 5)] "ema" = none) ∧
    loadCheckpoint [("ema", CkptVal.dict [("a", CkptVal.tensor 5)])] ["a"]
      = loadCheckpoint [("a", CkptVal.tensor 5)] ["a"] :=
  ⟨rfl, rfl, ema_precedence_nonnested _ _ ["a"] rfl rfl⟩

/-- Accumulated length of the concatenated buffer after folding any
sequence of segments through the per-round append. -/
theorem all_video_foldl_length (segs : List (List Frame)) :
    ∀ l : List (List Frame),
      (all_video (segs.foldl push_segment l)).length
        = (all_video l).length + (segs.map (fun s => s.length - 1)).sum := by
  induction segs with
  | nil => intro l; simp
  | cons s rest ih =>
    intro l
    rw [List.foldl_cons, ih]
    simp [all_video, push_segment]
    omega

/-- C5: the cumulative buffer starts with exactly 1 frame; each round's
extend appends the segment minus its first frame, in order, so the
length grows by the segment length minus 1 per round, and after all
rounds equals `1 + Σ (segment length − 1)`. -/
theorem buffer_length_closed_form (f0 : Frame) (segs : List (List Frame))
    (hne : ∀ s ∈ segs, s ≠ []) :
    (all_video (initial_seg_video_list f0)).length = 1 ∧
    (∀ l s, all_video (push_segment l s) = all_video l ++ s.drop 1) ∧
    (∀ l s, s ∈ segs →
      (all_video (push_segment l s)).length = (all_video l).length + s.length - 1) ∧
    (all_video (segs.foldl push_segment (initial_seg_video_list f0))).length
      = 1 + (segs.map (fun s => s.length - 1)).sum := by
  refine ⟨rfl, ?_, ?_, ?_⟩
  · intro l s
    simp [all_video, push_segment]
  · intro l s hs
    have h1 : 1 ≤ s.length := by
      have hne' := hne s hs
      cases s with
      | nil => exact absurd rfl hne'
      | cons a t => simp
    simp [all_video, push_segment]
    omega
  · rw [all_video_foldl_length segs (initial_seg_video_list f0)]
    simp [initial_seg_video_list, all_video]

/-- C5 witness: two nonempty segments of lengths 2 and 3 grow the
buffer from 1 frame to 1 + 1 + 2 = 4 frames. -/
theorem buffer_length_closed_form_witness :
    (∀ s ∈ ([[1, 2], [3, 4, 5]] : List (List Frame)), s ≠ []) ∧
    (all_video (([[1, 2], [3, 4, 5]] : List (List Frame)).foldl push_segment
        (initial_seg_video_list 0))).length
      = 1 + (([[1, 2], [3, 4, 5]] : List (List Frame)).map (fun s => s.length - 1)).sum :=
  ⟨by decide, (buffer_length_closed_form 0 [[1, 2], [3, 4, 5]] (by decide)).2.2.2⟩

/-- C6 counterexample: line 167 ends in `.clone()`, so the value stored
in `start_image` is a newly allocated tensor, not the identical last
latent object of the trajectory: with latents of object ids 0 and 1 and
the clone allocated at the unused id 2, the stored tensor differs from
the trajectory's last element. -/
theorem latent_update_clones_not_aliases :
    update_start_image 2 [⟨0, 5⟩, ⟨1, 7⟩]
      ≠ ([(⟨0, 5⟩ : Tensor), ⟨1, 7⟩].getLast?) := by
  decide

/-- C6 (amended): after each round the tracker holds a clone of the last
latent returned by the generator: a tensor with identical data that
fully replaces the previous value, but a distinct object (its identity
is freshly allocated), not the identical last-latent object. -/
theorem latent_update_is_fresh_copy (fresh : Nat) (seg_latents : List Tensor)
    (h : seg_latents ≠ []) (hf : fresh ∉ seg_latents.map Tensor.oid) :
    ∃ t, update_start_image fresh seg_latents = some t ∧
      t.data = (seg_latents.getLast h).data ∧ t ≠ seg_latents.getLast h := by
  refine ⟨clone fresh (seg_latents.getLast h), ?_, rfl, ?_⟩
  · simp [update_start_image, List.getLast?_eq_getLast _ h]
  · intro heq
    apply hf
    have hoid : fresh = (seg_latents.getLast h).oid := congrArg Tensor.oid heq
    rw [hoid]
    exact List.mem_map_of_mem _ (List.getLast_mem h)

/-- A fold of cell writes leaves a cell unchanged when every single
write leaves it unchanged. -/
theorem foldl_preserves_cell {α : Type} (g : FrameFn → α → FrameFn) (l : List α)
    (r c : Nat) (hg : ∀ a ∈ l, ∀ f, g f a r c = f r c) :
    ∀ f, (l.foldl g f) r c = f r c := by
  induction l with
  | nil => intro f; rfl
  | cons a l ih =>
    intro f
    rw [List.foldl_cons, ih (fun b hb f => hg b (List.mem_cons_of_mem a hb) f)]
    exact hg a (List.mem_cons_self a l) f

/-- A single conditional cell write changes nothing at any other cell,
nor at its own cell when the arrow pixel there is zero. -/
theorem write_cell_skip (arrow : Image) (i j r c : Nat) (f : FrameFn)
    (hno : ¬ (r = 200 + i ∧ c = 240 + j ∧ arrow.pix i j ≠ ((0, 0, 0) : Pix))) :
    write_cell arrow i j f r c = f r c := by
  unfold write_cell
  by_cases hp : arrow.pix i j = ((0, 0, 0) : Pix)
  · rw [if_neg (not_not_intro hp)]
  · rw [if_pos hp]
    rw [if_neg]
    intro hc
    exact hno ⟨hc.1, hc.2, hp⟩

/-- The double overlay loop leaves every pixel outside the non-zero
arrow region (anchored at `(200, 240)`) unchanged. -/
theorem overlay_arrow_outside (arrow : Image) (frame : FrameFn) (r c : Nat)
    (hout : ¬ inArrowBox arrow r c) :
    overlay_arrow arrow frame r c = frame r c := by
  unfold overlay_arrow
  apply foldl_preserves_cell
  intro i hi f
  unfold overlay_row
  apply foldl_preserves_cell
  intro j hj g
  apply write_cell_skip
  rintro ⟨hr, hc, hp⟩
  apply hout
  have hi' : i < arrow.rows := List.mem_range.mp hi
  have hj' : j < arrow.cols := List.mem_range.mp hj
  subst hr hc
  refine ⟨by omega, by omega, by omega, by omega, ?_⟩
  simpa [Nat.add_sub_cancel_left] using hp

/-- C7: the overlay `add_arrows_to_video` raises a `ValueError` exactly
when the action list length differs from the frame count, and proceeds
otherwise; the main session loop performs no such validation — for any
generator output with a nonempty latent trajectory, the round completes
regardless of any relation between action count and frame count. -/
theorem length_validation_only_in_overlay :
    (∀ (base : Image) (video_np : List FrameFn) (actions : List Char),
      (∃ msg, add_arrows_to_video base video_np actions = Except.error msg) ↔
        actions.length ≠ video_np.length) ∧
    (∀ gen fresh (st : SessionState) (env_actions : List Char),
      (gen st.start_image (encodeActions env_actions)).seg_latents ≠ [] →
      ∃ out, roundStep gen fresh st env_actions = Except.ok out) := by
  constructor
  · intro base video_np actions
    constructor
    · rintro ⟨msg, hmsg⟩
      by_cases h : actions.length = video_np.length
      · simp [add_arrows_to_video, h] at hmsg
      · exact h
    · intro h
      refine ⟨"The length of the actions list must match the number of video frames.", ?_⟩
      simp [add_arrows_to_video, h]
  · intro gen fresh st env_actions hne
    refine ⟨({ start_image :=
                 clone fresh
                   ((gen st.start_image (encodeActions env_actions)).seg_latents.getLast hne),
               seg_video_list :=
                 push_segment st.seg_video_list
                   (gen st.start_image (encodeActions env_actions)).seg_video,
               seg_idx := st.seg_idx + 1 },
             { path := output_video_path st.seg_idx, fps := 4,
               frames :=
                 all_video
                   (push_segment st.seg_video_list
                     (gen st.start_image (encodeActions env_actions)).seg_video) }), ?_⟩
    simp [roundStep, update_start_image, List.getLast?_eq_getLast _ hne]

/-- C7 witness: a one-frame video with no actions errors; with one
blank action it succeeds; a concrete round with one latent completes. -/
theorem length_validation_only_in_overlay_witness :
    ((∃ msg, add_arrows_to_video sampleImage [sampleFrame] [] = Except.error msg) ↔
      ([] : List Char).length ≠ [sampleFrame].length) ∧
    ((sampleGen sampleState.start_image (encodeActions ['w'])).seg_latents ≠ []) ∧
    (∃ out, roundStep sampleGen 1 sampleState ['w'] = Except.ok out) :=
  ⟨length_validation_only_in_overlay.1 sampleImage [sampleFrame] [],
   by simp [sampleGen],
   length_validation_only_in_overlay.2 sampleGen 1 sampleState ['w'] (by simp [sampleGen])⟩

/-- C9: a frame paired with the blank action `' '` is written out
unchanged, and for a non-blank action every pixel outside the arrow's
non-zero region anchored at `(200, 240)` is left unchanged. -/
theorem overlay_modifies_only_arrow_pixels (base : Image) (frame : FrameFn)
    (action : Char) :
    process_frame base frame ' ' = frame ∧
    (action ≠ ' ' → ∀ r c,
      ¬ inArrowBox (create_arrow_image base action 50 ((255, 0, 0) : Pix)) r c →
      process_frame base frame action r c = frame r c) := by
  constructor
  · simp [process_frame]
  · intro ha r c hout
    simp only [process_frame, if_pos ha]
    exact overlay_arrow_outside _ _ _ _ hout

/-- C9 witness: with a concrete 1×1 arrow, the pixel at `(0, 0)` lies
outside the stamped region and keeps its value under action `'w'`;
a blank action keeps the whole frame. -/
theorem overlay_modifies_only_arrow_pixels_witness :
    (process_frame sampleImage sampleFrame ' ' = sampleFrame) ∧
    (('w' : Char) ≠ ' ') ∧
    (¬ inArrowBox (create_arrow_image sampleImage 'w' 50 ((255, 0, 0) : Pix)) 0 0) ∧
    process_frame sampleImage sampleFrame 'w' 0 0 = sampleFrame 0 0 :=
  ⟨(overlay_modifies_only_arrow_pixels sampleImage sampleFrame 'w').1,
   by decide, by decide,
   (overlay_modifies_only_arrow_pixels sampleImage sampleFrame 'w').2
     (by decide) 0 0 (by decide)⟩

/-- C10: `create_arrow_image` ignores its `size` and `color` parameters
(the zero-initialised canvas they shape is immediately overwritten by
the loaded base arrow), and returns the base flipped vertically for
`'s'`, rotated 90° counter-clockwise for `'a'`, rotated 90° clockwise
for `'d'`, and unmodified for `'w'` or any other direction. -/
theorem create_arrow_image_direction_only (base : Image) (direction : Char)
    (size size2 : Nat) (color color2 : Pix) :
    create_arrow_image base direction size color
      = create_arrow_image base direction size2 color2 ∧
    create_arrow_image base 's' size color = flipud base ∧
    create_arrow_image base 'a' size color = rot90 base ∧
    create_arrow_image base 'd' size color = rot90cw base ∧
    create_arrow_image base 'w' size color = base ∧
    (direction ∉ (['s', 'a', 'd'] : List Char) →
      create_arrow_image base direction size color = base) := by
  refine ⟨rfl, rfl, rfl, rfl, rfl, ?_⟩
  intro h
  simp only [List.mem_cons, List.mem_singleton, not_or] at h
  simp [create_arrow_image, h.1, h.2.1, h.2.2]

/-- C10 witness: direction `'x'` is none of `'s'`, `'a'`, `'d'`. -/
theorem create_arrow_image_direction_only_witness :
    (create_arrow_image sampleImage 'w' 50 ((255, 0, 0) : Pix)
      = create_arrow_image sampleImage 'w' 99 ((0, 0, 255) : Pix)) ∧
    (('x' : Char) ∉ (['s', 'a', 'd'] : List Char)) ∧
    create_arrow_image sampleImage 'x' 50 ((255, 0, 0) : Pix) = sampleImage :=
  ⟨(create_arrow_image_direction_only sampleImage 'w' 50 99 ((255, 0, 0) : Pix)
      ((0, 0, 255) : Pix)).1,
   by decide,
   (create_arrow_image_direction_only sampleImage 'x' 50 99 ((255, 0, 0) : Pix)
      ((0, 0, 255) : Pix)).2.2.2.2.2 (by decide)⟩

/-- `Nat.digitChar` is injective on digits below ten. -/
theorem digitChar_inj_below_ten :
    ∀ a < 10, ∀ b < 10, Nat.digitChar a = Nat.digitChar b → a = b := by
  decide

/-- Mapping `Nat.digitChar` over lists of digits below ten is injective. -/
theorem map_digitChar_inj :
    ∀ l1 l2 : List Nat, (∀ x ∈ l1, x < 10) → (∀ x ∈ l2, x < 10) →
      l1.map Nat.digitChar = l2.map Nat.digitChar → l1 = l2 := by
  intro l1
  induction l1 with
  | nil =>
    intro l2 _ _ h
    cases l2 with
    | nil => rfl
    | cons b t => simp at h
  | cons a t ih =>
    intro l2 h1 h2 h
    cases l2 with
    | nil => simp at h
    | cons b t2 =>
      simp only [List.map_cons, List.cons.injEq] at h
      have ha : a = b :=
        digitChar_inj_below_ten a (h1 a (List.mem_cons_self a t)) b
          (h2 b (List.mem_cons_self b t2)) h.1
      have ht : t = t2 :=
        ih t2 (fun x hx => h1 x (List.mem_cons_of_mem a hx))
          (fun x hx => h2 x (List.mem_cons_of_mem b hx)) h.2
      rw [ha, ht]

/-- Core's fuelled decimal printer agrees with `Nat.digits` (most
significant digit first) on positive inputs, for any sufficient fuel. -/
theorem toDigitsCore_eq_digits :
    ∀ n : Nat, 0 < n → ∀ fuel : Nat, n ≤ fuel → ∀ acc : List Char,
      Nat.toDigitsCore 10 fuel n acc
        = ((Nat.digits 10 n).map Nat.digitChar).reverse ++ acc := by
  intro n
  induction n using Nat.strong_induction_on with
  | _ n ih =>
    intro hn fuel hfuel acc
    match fuel with
    | 0 => omega
    | f + 1 =>
      rw [Nat.toDigitsCore]
      by_cases h0 : n / 10 = 0
      · rw [if_pos h0]
        rw [Nat.digits_def' (by norm_num : (1 : ℕ) < 10) hn, h0, Nat.digits_zero]
        simp
      · rw [if_neg h0]
        have hpos : 0 < n / 10 := Nat.pos_of_ne_zero h0
        have hlt : n / 10 < n := Nat.div_lt_self hn (by norm_num)
        rw [ih (n / 10) hlt hpos f (by omega) _]
        rw [Nat.digits_def' (by norm_num : (1 : ℕ) < 10) hn]
        simp

/-- Core's `Nat.toDigits` in terms of `Nat.digits`. -/
theorem toDigits_eq_digits (n : Nat) :
    Nat.toDigits 10 n
      = if n = 0 then ['0'] else ((Nat.digits 10 n).map Nat.digitChar).reverse := by
  by_cases h : n = 0
  · subst h; rfl
  · rw [if_neg h]
    have := toDigitsCore_eq_digits n (Nat.pos_of_ne_zero h) (n + 1) (by omega) []
    simpa [Nat.toDigits] using this

/-- The decimal printout of a positive number is never the single
character `'0'`. -/
theorem digits_print_ne_zero_singleton (n : Nat) (hn : n ≠ 0) :
    ((Nat.digits 10 n).map Nat.digitChar).reverse ≠ ['0'] := by
  intro h
  have h2 : (Nat.digits 10 n).map Nat.digitChar = ['0'] := by
    have := congrArg List.reverse h
    simpa using this
  have h3 : Nat.digits 10 n = [0] :=
    map_digitChar_inj _ [0] (fun x hx => Nat.digits_lt_base (by norm_num) hx)
      (by intro x hx; simp at hx; omega) (by simpa using h2)
  have h4 := Nat.ofDigits_digits 10 n
  rw [h3] at h4
  simp [Nat.ofDigits_cons, Nat.ofDigits_nil] at h4
  exact hn h4.symm

/-- Two distinct naturals have distinct decimal printouts. -/
theorem toDigits_ten_injective (m n : Nat) (h : Nat.toDigits 10 m = Nat.toDigits 10 n) :
    m = n := by
  rw [toDigits_eq_digits, toDigits_eq_digits] at h
  by_cases hm : m = 0 <;> by_cases hn : n = 0
  · rw [hm, hn]
  · rw [if_pos hm, if_neg hn] at h
    exact absurd h.symm (digits_print_ne_zero_singleton n hn)
  · rw [if_neg hm, if_pos hn] at h
    exact absurd h (digits_print_ne_zero_singleton m hm)
  · rw [if_neg hm, if_neg hn] at h
    have h2 : (Nat.digits 10 m).map Nat.digitChar = (Nat.digits 10 n).map Nat.digitChar := by
      have := congrArg List.reverse h
      simpa using this
    have h3 : Nat.digits 10 m = Nat.digits 10 n :=
      map_digitChar_inj _ _ (fun x hx => Nat.digits_lt_base (by norm_num) hx)
        (fun x hx => Nat.digits_lt_base (by norm_num) hx) h2
    have h4 := Nat.ofDigits_digits 10 m
    rw [h3, Nat.ofDigits_digits] at h4
    exact h4.symm

/-- `Nat.repr` (Python's `str` on a non-negative int, as used by the
f-string in line 175) is injective. -/
theorem nat_repr_injective (m n : Nat) (h : Nat.repr m = Nat.repr n) : m = n := by
  apply toDigits_ten_injective
  have := congrArg String.data h
  simpa [Nat.repr, List.asString] using this

/-- C8: each round writes the entire cumulative buffer, in order, at 4
frames per second, to the path tagged with the round's index, and the
index increases by exactly 1; distinct round indices give distinct
paths, so no round's file overwrites another's. -/
theorem persist_full_buffer_distinct_paths :
    (∀ gen fresh (st : SessionState) (env_actions : List Char) r file,
      roundStep gen fresh st env_actions = Except.ok (r, file) →
      file.frames = all_video r.seg_video_list ∧ file.fps = 4 ∧
      file.path = output_video_path st.seg_idx ∧ r.seg_idx = st.seg_idx + 1) ∧
    (∀ m n : Nat, m ≠ n → output_video_path m ≠ output_video_path n) := by
  constructor
  · intro gen fresh st env_actions r file h
    simp only [roundStep] at h
    split at h
    · exact absurd h (by simp)
    · injection h with h2
      simp only [Prod.mk.injEq] at h2
      obtain ⟨hr, hf⟩ := h2
      subst hr hf
      exact ⟨rfl, rfl, rfl, rfl⟩
  · intro m n hmn heq
    apply hmn
    have hd := congrArg String.data heq
    simp only [output_video_path, String.data_append] at hd
    exact nat_repr_injective m n
      (String.ext (List.append_cancel_left (List.append_cancel_right hd)))

/-- C8 witness: one concrete round from `sampleState` writes the full
two-frame buffer at 4 fps to the round-0 path, and paths of rounds 0
and 1 differ. -/
theorem persist_full_buffer_distinct_paths_witness :
    (roundStep sampleGen 1 sampleState ['w'] = Except.ok (sampleNextState, sampleFile)) ∧
    (sampleFile.frames = all_video sampleNextState.seg_video_list ∧ sampleFile.fps = 4 ∧
      sampleFile.path = output_video_path sampleState.seg_idx ∧
      sampleNextState.seg_idx = sampleState.seg_idx + 1) ∧
    ((0 : Nat) ≠ 1) ∧ output_video_path 0 ≠ output_video_path 1 :=
  ⟨rfl,
   persist_full_buffer_distinct_paths.1 sampleGen 1 sampleState ['w']
     sampleNextState sampleFile rfl,
   by decide,
   persist_full_buffer_distinct_paths.2 0 1 (by decide)⟩

/-- C6 witness: the clone of the last of two latents, at fresh id 2. -/
theorem latent_update_is_fresh_copy_witness :
    (([(⟨0, 5⟩ : Tensor), ⟨1, 7⟩] : List Tensor) ≠ []) ∧
    (2 ∉ ([(⟨0, 5⟩ : Tensor), ⟨1, 7⟩] : List Tensor).map Tensor.oid) ∧
    ∃ t, update_start_image 2 [⟨0, 5⟩, ⟨1, 7⟩] = some t ∧
      t.data = (([(⟨0, 5⟩ : Tensor), ⟨1, 7⟩] : List Tensor).getLast (by decide)).data ∧
      t ≠ ([(⟨0, 5⟩ : Tensor), ⟨1, 7⟩] : List Tensor).getLast (by decide) :=
  ⟨by decide, by decide,
    latent_update_is_fresh_copy 2 [⟨0, 5⟩, ⟨1, 7⟩] (by decide) (by decide)⟩

end LanguageTable
